import Mathlib

/-
Verification of the OneSig Solana program (packages/onesig/onesig-solana).

The program's byte-level operations are shallowly embedded: byte strings are
lists of naturals (each entry a byte value), machine integers are Nat or Int
with explicit width hypotheses where they matter, and the two external
cryptographic primitives that the program calls through Solana syscalls
(keccak256 hashing and secp256k1 public-key recovery) are abstract function
parameters, since their implementations are not part of this repository.
Fallible Rust code returns Except; code that can also panic returns RtResult.
-/

namespace OneSig

/-- Byte strings: each element is one byte value. -/
abbrev Bytes := List Nat

/-- Error codes of the program (enum OneSigError in errors.rs, referenced by
name throughout the source), extended with a variant for a failing inner CPI
invocation whose error is propagated verbatim. -/
inductive OneSigError where
  | InvalidThreshold
  | SignatureDataSizeMismatch
  | InsufficientSignatures
  | InvalidSignatureFormat
  | FailedSignatureRecovery
  | MissingSigner
  | DuplicateSigners
  | ExpiredMerkleRoot
  | InvalidProof
  | SeedMismatch
  | MissingMerkleRootState
  | ExecutorRequired
  | Reentrancy
  | ExcessiveBalanceDeduction
  | InvalidSignerOwner
  | NonEmptySignerData
  | InvalidSigner
  | InvalidSignersLen
  | ThresholdExceedsSigners
  | InvalidExecutor
  | InvalidExecutorsLen
  | DuplicateExecutor
  | ExecutorNotFound
  | EmptyExecutorSet
  deriving DecidableEq, Repr

/-- Result of running code that can succeed, return a typed error, or panic
(Rust unwrap / out-of-bounds indexing aborts the whole instruction). -/
inductive RtResult (ε : Type) (α : Type) where
  | ok : α → RtResult ε α
  | err : ε → RtResult ε α
  | panic : RtResult ε α
  deriving DecidableEq, Repr

/-- Lift an Except value into RtResult. -/
def liftE {ε α : Type} : Except ε α → RtResult ε α
  | .ok a => .ok a
  | .error e => .err e

/-- Big-endian fixed-width byte encoding, as Rust to_be_bytes: most
significant byte first, n bytes total. -/
def beBytes : Nat → Nat → Bytes
  | 0, _ => []
  | n + 1, v => beBytes n (v / 256) ++ [v % 256]

/-- Little-endian fixed-width byte encoding, as Rust to_le_bytes (the layout
Borsh uses for integer length prefixes and u64 fields). -/
def leBytes : Nat → Nat → Bytes
  | 0, _ => []
  | n + 1, v => v % 256 :: leBytes n (v / 256)

theorem beBytes_length (n v : Nat) : (beBytes n v).length = n := by
  induction n generalizing v with
  | zero => rfl
  | succ n ih => simp [beBytes, ih]

/-- Splitting a big-endian field: a block of m zero bytes followed by the
n-byte big-endian encoding of v is exactly the (m+n)-byte big-endian
encoding of v, provided v fits in n bytes. -/
theorem beBytes_zero_append (m n v : Nat) (hv : v < 256 ^ n) :
    beBytes m 0 ++ beBytes n v = beBytes (m + n) v := by
  induction n generalizing v with
  | zero =>
    interval_cases v
    simp [beBytes]
  | succ n ih =>
    have hv' : v / 256 < 256 ^ n := by
      rw [Nat.div_lt_iff_lt_mul (by norm_num)]
      calc v < 256 ^ (n + 1) := hv
        _ = 256 ^ n * 256 := by ring
    have : m + (n + 1) = (m + n) + 1 := by omega
    rw [this]
    simp only [beBytes, ← List.append_assoc, ih (v / 256) hv']

/-- Lexicographic strict comparison of byte strings, matching the derived
Ord instance Rust uses on the Hash newtype over a fixed 32-byte array
(unsigned byte-wise comparison). -/
def bytesLt : Bytes → Bytes → Bool
  | [], [] => false
  | [], _ :: _ => true
  | _ :: _, [] => false
  | a :: as, b :: bs => if a < b then true else if b < a then false else bytesLt as bs

theorem bytesLt_asymm {a b : Bytes} (h : bytesLt a b = true) : bytesLt b a = false := by
  induction a generalizing b with
  | nil =>
    cases b with
    | nil => simp [bytesLt] at h
    | cons y ys => simp [bytesLt]
  | cons x xs ih =>
    cases b with
    | nil => simp [bytesLt] at h
    | cons y ys =>
      simp only [bytesLt] at h ⊢
      by_cases hxy : x < y
      · simp [hxy, Nat.lt_asymm hxy, Nat.ne_of_lt hxy]
      · by_cases hyx : y < x
        · simp [hxy, hyx] at h
        · simp [hxy, hyx] at h ⊢
          exact ih h

theorem bytesLt_total_eq {a b : Bytes} (hab : bytesLt a b = false)
    (hba : bytesLt b a = false) : a = b := by
  induction a generalizing b with
  | nil =>
    cases b with
    | nil => rfl
    | cons y ys => simp [bytesLt] at hab
  | cons x xs ih =>
    cases b with
    | nil => simp [bytesLt] at hba
    | cons y ys =>
      simp only [bytesLt] at hab hba
      by_cases hxy : x < y
      · simp [hxy] at hab
      · by_cases hyx : y < x
        · simp [hyx, Nat.lt_asymm hyx] at hba
        · have hx : x = y := by omega
          simp [hxy, hyx] at hab hba
          rw [hx, ih hab hba]

/-- One folding step of MerkleValidator::verify_merkle_proof in
validation/merkle.rs: hash the pair with the smaller element first, where
the comparison is the byte-wise order on 32-byte hashes. The branch shape
mirrors the source (if computed_hash < p then hash(computed, p) else
hash(p, computed)). -/
def merkleStep (keccak : Bytes → Bytes) (computed p : Bytes) : Bytes :=
  if bytesLt computed p then keccak (computed ++ p) else keccak (p ++ computed)

/-- MerkleValidator::verify_merkle_proof: fold the leaf through the proof
elements in order and require the result to equal the expected root. -/
def verify_merkle_proof (keccak : Bytes → Bytes) (merkle_root : Bytes)
    (proof : List Bytes) (leaf : Bytes) : Except OneSigError Unit :=
  let computed := proof.foldl (merkleStep keccak) leaf
  if computed = merkle_root then .ok () else .error .InvalidProof

/-- The smaller of two byte strings under unsigned byte-array comparison. -/
def minBytes (a b : Bytes) : Bytes := if bytesLt b a then b else a

/-- The larger of two byte strings under unsigned byte-array comparison. -/
def maxBytes (a b : Bytes) : Bytes := if bytesLt b a then a else b

/-- Spec-side folding step: hash of min followed by max. -/
def merkleStepSorted (keccak : Bytes → Bytes) (computed p : Bytes) : Bytes :=
  keccak (minBytes computed p ++ maxBytes computed p)

theorem merkleStep_eq_sorted (keccak : Bytes → Bytes) (c p : Bytes) :
    merkleStep keccak c p = merkleStepSorted keccak c p := by
  unfold merkleStep merkleStepSorted minBytes maxBytes
  by_cases h : bytesLt c p = true
  · simp [h, bytesLt_asymm h]
  · by_cases h2 : bytesLt p c = true
    · simp [h, h2]
    · have heq : p = c := bytesLt_total_eq (by simpa using h2) (by simpa using h)
      simp [h, h2, heq]

theorem merkleStep_comm (keccak : Bytes → Bytes) (c p : Bytes) :
    merkleStep keccak c p = merkleStep keccak p c := by
  unfold merkleStep
  by_cases h : bytesLt c p = true
  · simp [h, bytesLt_asymm h]
  · by_cases h2 : bytesLt p c = true
    · simp [h, h2]
    · have heq : p = c := bytesLt_total_eq (by simpa using h2) (by simpa using h)
      simp [h, h2, heq]

theorem foldl_merkleStep_eq_sorted (keccak : Bytes → Bytes) (proof : List Bytes)
    (leaf : Bytes) :
    proof.foldl (merkleStep keccak) leaf = proof.foldl (merkleStepSorted keccak) leaf := by
  induction proof generalizing leaf with
  | nil => rfl
  | cons p rest ih => simp [List.foldl_cons, merkleStep_eq_sorted, ih]

/-- Size of one raw signature chunk: 64 signature bytes plus one recovery
byte (constants.rs SIGNATURE_BYTES_LEN). -/
def SIGNATURE_BYTES_LEN : Nat := 65

/-- Rust slice chunks(65): successive sub-slices of at most 65 bytes. -/
def chunks65 (l : Bytes) : List Bytes :=
  if h : l = [] then [] else
    l.take SIGNATURE_BYTES_LEN :: chunks65 (l.drop SIGNATURE_BYTES_LEN)
termination_by l.length
decreasing_by
  simp only [List.length_drop]
  cases l with
  | nil => exact absurd rfl h
  | cons x xs =>
    simp only [SIGNATURE_BYTES_LEN, List.length_cons]
    omega

/-- Recovery-id normalization in SignatureValidator::recover_signer:
subtract 27 when the id is 27 or 28, otherwise keep it. -/
def normalizeRecoveryId (rid : Nat) : Nat :=
  if 27 ≤ rid ∧ rid ≤ 28 then rid - 27 else rid

/-- Address derivation (impl From Secp256k1Pubkey for Address in types.rs):
the low 20 bytes of the keccak256 hash of the 64 public-key bytes, i.e. the
hash with its first 12 bytes dropped. -/
def addressOfPubkey (keccak : Bytes → Bytes) (pk : Bytes) : Bytes :=
  (keccak pk).drop 12

/-- The signer loop body of SignatureValidator::verify_signatures: walk the
65-byte chunks in blob order, recover each signer, require membership in the
signer list and no duplicate among signers already seen. The recover
parameter abstracts the secp256k1_recover syscall: digest bytes, normalized
recovery id and the 64 r,s bytes to an optional 64-byte public key. -/
def verifyLoop (keccak : Bytes → Bytes)
    (recover : Bytes → Nat → Bytes → Option Bytes)
    (signers : List Bytes) (digest : Bytes) :
    List Bytes → List Bytes → Except OneSigError Unit
  | [], _ => .ok ()
  | chunk :: rest, seen =>
    if chunk.length ≠ SIGNATURE_BYTES_LEN then .error .InvalidSignatureFormat
    else
      match recover digest (normalizeRecoveryId (chunk.getLastD 0)) chunk.dropLast with
      | none => .error .FailedSignatureRecovery
      | some pk =>
        if addressOfPubkey keccak pk ∈ signers then
          if addressOfPubkey keccak pk ∈ seen then .error .DuplicateSigners
          else verifyLoop keccak recover signers digest rest (addressOfPubkey keccak pk :: seen)
        else .error .MissingSigner

/-- SignatureValidator::verify_signatures: threshold positivity, blob length
checks, then the per-chunk loop starting from an empty seen set. -/
def verify_signatures (keccak : Bytes → Bytes)
    (recover : Bytes → Nat → Bytes → Option Bytes)
    (threshold : Nat) (signers : List Bytes) (digest : Bytes)
    (signatures : Bytes) : Except OneSigError Unit :=
  if threshold = 0 then .error .InvalidThreshold
  else if signatures.length % SIGNATURE_BYTES_LEN ≠ 0 then .error .SignatureDataSizeMismatch
  else if signatures.length < threshold * SIGNATURE_BYTES_LEN then .error .InsufficientSignatures
  else verifyLoop keccak recover signers digest (chunks65 signatures) []

/-- Option-valued map over a list: some list of results when every element
succeeds, none as soon as one fails. -/
def mapO {α β : Type} (f : α → Option β) : List α → Option (List β)
  | [] => some []
  | a :: l =>
    match f a with
    | none => none
    | some b =>
      match mapO f l with
      | none => none
      | some bs => some (b :: bs)

/-- The address a single 65-byte chunk resolves to, when it does: split off
the trailing recovery byte, normalize it, recover the public key and hash it
into an address. -/
def chunkAddr (keccak : Bytes → Bytes)
    (recover : Bytes → Nat → Bytes → Option Bytes)
    (digest : Bytes) (chunk : Bytes) : Option Bytes :=
  if chunk.length ≠ SIGNATURE_BYTES_LEN then none
  else
    match recover digest (normalizeRecoveryId (chunk.getLastD 0)) chunk.dropLast with
    | none => none
    | some pk => some (addressOfPubkey keccak pk)

theorem mapO_cons {α β : Type} (f : α → Option β) (a : α) (l : List α) :
    mapO f (a :: l) =
      match f a with
      | none => none
      | some b =>
        match mapO f l with
        | none => none
        | some bs => some (b :: bs) := rfl

theorem verifyLoop_ok_iff (keccak : Bytes → Bytes)
    (recover : Bytes → Nat → Bytes → Option Bytes)
    (signers : List Bytes) (digest : Bytes) (chunks seen : List Bytes) :
    verifyLoop keccak recover signers digest chunks seen = .ok () ↔
      ∃ addrs : List Bytes,
        mapO (chunkAddr keccak recover digest) chunks = some addrs ∧
        (∀ a ∈ addrs, a ∈ signers) ∧ addrs.Nodup ∧ ∀ a ∈ addrs, a ∉ seen := by
  induction chunks generalizing seen with
  | nil =>
    simp [verifyLoop, mapO]
  | cons chunk rest ih =>
    simp only [verifyLoop]
    by_cases hlen : chunk.length ≠ SIGNATURE_BYTES_LEN
    · have hc : chunkAddr keccak recover digest chunk = none := by
        rw [chunkAddr, if_pos hlen]
      rw [if_pos hlen]
      constructor
      · intro h; cases h
      · rintro ⟨addrs, habs, -⟩
        rw [mapO_cons, hc] at habs
        cases habs
    · rw [if_neg hlen]
      cases hrec : recover digest (normalizeRecoveryId (chunk.getLastD 0)) chunk.dropLast with
      | none =>
        have hc : chunkAddr keccak recover digest chunk = none := by
          rw [chunkAddr, if_neg hlen, hrec]
        constructor
        · intro h; cases h
        · rintro ⟨addrs, habs, -⟩
          rw [mapO_cons, hc] at habs
          cases habs
      | some pk =>
        dsimp only
        have hc : chunkAddr keccak recover digest chunk = some (addressOfPubkey keccak pk) := by
          rw [chunkAddr, if_neg hlen, hrec]
        by_cases hmem : addressOfPubkey keccak pk ∈ signers
        · by_cases hseen : addressOfPubkey keccak pk ∈ seen
          · rw [if_pos hmem, if_pos hseen]
            constructor
            · intro h; cases h
            · rintro ⟨addrs, habs, -, -, hnot⟩
              rw [mapO_cons, hc] at habs
              cases hrest : mapO (chunkAddr keccak recover digest) rest with
              | none => rw [hrest] at habs; cases habs
              | some bs =>
                rw [hrest] at habs
                cases habs
                exact ((hnot _ (List.mem_cons_self _ _)) hseen).elim
          · rw [if_pos hmem, if_neg hseen, ih]
            constructor
            · rintro ⟨addrs, habs, hsig, hnd, hnot⟩
              refine ⟨addressOfPubkey keccak pk :: addrs, ?_, ?_, ?_, ?_⟩
              · rw [mapO_cons, hc, habs]
              · intro a ha
                rcases List.mem_cons.mp ha with h | h
                · exact h ▸ hmem
                · exact hsig a h
              · refine List.nodup_cons.mpr ⟨?_, hnd⟩
                intro hcmem
                exact (hnot _ hcmem) (List.mem_cons_self _ _)
              · intro a ha
                rcases List.mem_cons.mp ha with h | h
                · exact h ▸ hseen
                · intro hs
                  exact (hnot a h) (List.mem_cons_of_mem _ hs)
            · rintro ⟨addrs, habs, hsig, hnd, hnot⟩
              rw [mapO_cons, hc] at habs
              cases hrest : mapO (chunkAddr keccak recover digest) rest with
              | none => rw [hrest] at habs; cases habs
              | some bs =>
                rw [hrest] at habs
                cases habs
                rcases List.nodup_cons.mp hnd with ⟨hhd, hnd'⟩
                refine ⟨bs, rfl, ?_, hnd', ?_⟩
                · intro a ha; exact hsig a (List.mem_cons_of_mem _ ha)
                · intro a ha
                  simp only [List.mem_cons, not_or]
                  constructor
                  · intro heq; exact hhd (heq ▸ ha)
                  · exact hnot a (List.mem_cons_of_mem _ ha)
        · rw [if_neg hmem]
          constructor
          · intro h; cases h
          · rintro ⟨addrs, habs, hsig, -⟩
            rw [mapO_cons, hc] at habs
            cases hrest : mapO (chunkAddr keccak recover digest) rest with
            | none => rw [hrest] at habs; cases habs
            | some bs =>
              rw [hrest] at habs
              cases habs
              exact (hmem (hsig _ (List.mem_cons_self _ _))).elim

/-- Maximum number of signers (constants.rs). -/
def SIGNERS_MAX_LEN : Nat := 20

/-- Maximum number of executors (constants.rs). -/
def EXECUTORS_MAX_LEN : Nat := 277

/-- Maximum threshold (constants.rs). -/
def MAX_THRESHOLD : Nat := 13

/-- EIP-191 prefix for EIP-712 style digests (constants.rs), the literal
two-byte array 0x19 0x01. -/
def EIP191_PREFIX_FOR_EIP712 : Bytes := [0x19, 0x01]

/-- Type hash constant (constants.rs SIGN_MERKLE_ROOT_TYPE_HASH), stored as
a literal 32-byte array. -/
def SIGN_MERKLE_ROOT_TYPE_HASH : Bytes :=
  [0x64, 0x2e, 0xd5, 0xd2, 0xb7, 0x7b, 0xc7, 0xcc, 0xb9, 0x8e, 0x10, 0xda,
   0x4c, 0x02, 0xd7, 0xcd, 0x82, 0x31, 0x22, 0x8d, 0xa4, 0x22, 0x2a, 0x9f,
   0x88, 0xa8, 0x0c, 0x15, 0x54, 0x50, 0x74, 0xed]

/-- Pre-calculated EIP-712 domain separator (constants.rs DOMAIN_SEPARATOR),
stored as a literal 32-byte array. -/
def DOMAIN_SEPARATOR : Bytes :=
  [0x94, 0xc2, 0x89, 0x89, 0x17, 0x0e, 0xb4, 0xdc, 0x31, 0x35, 0x91, 0x74,
   0xb9, 0x11, 0x5c, 0x11, 0x6a, 0x8f, 0xaf, 0xa6, 0x7b, 0x5a, 0xda, 0xcc,
   0x57, 0x0c, 0xa5, 0x83, 0xeb, 0x96, 0xd6, 0x57]

/-- Version byte of the Merkle leaf encoding (constants.rs), the literal
one-byte array with value 1. -/
def MERKLE_LEAF_ENCODING_VERSION : Bytes := [1]

/-- Multisig roster (state.rs): signer addresses and threshold. -/
structure Multisig where
  signers : List Bytes
  threshold : Nat
  deriving DecidableEq, Repr

/-- Executor configuration (state.rs): executor public keys and the
executor-required flag. -/
structure Executors where
  executors : List Bytes
  executor_required : Bool
  deriving DecidableEq, Repr

/-- The OneSigState account (state.rs). -/
structure OneSigState where
  one_sig_id : Nat
  seed : Bytes
  bump : Nat
  nonce : Nat
  multisig : Multisig
  executors : Executors
  deriving DecidableEq, Repr

/-- The MerkleRootState account (state.rs): a stored, pre-verified root
together with the seed copied from the owning instance, an expiry and
bookkeeping fields. -/
structure MerkleRootState where
  merkle_root : Bytes
  seed : Bytes
  expiry : Int
  rent_payer : Bytes
  bump : Nat
  deriving DecidableEq, Repr

/-- Rust TryInto u128 for an i64 value: succeeds exactly when the value is
representable, i.e. non-negative (an i64 is always below 2 to the 128). -/
def i64_to_u128 (v : Int) : Option Nat :=
  if 0 ≤ v ∧ v < 2 ^ 128 then some v.toNat else none

/-- The EIP-712 style digest built inside MerkleValidator::verify_merkle_root:
keccak of the two-byte prefix, the domain separator and the inner keccak of
the type hash, seed, root and the 256-bit big-endian expiry written as
16 zero bytes followed by the 16-byte big-endian u128 value, exactly as the
source passes the slices to keccak::hashv. -/
def merkleRootDigest (keccak : Bytes → Bytes) (seed merkle_root : Bytes)
    (expiry_u128 : Nat) : Bytes :=
  keccak (EIP191_PREFIX_FOR_EIP712 ++ DOMAIN_SEPARATOR ++
    keccak (SIGN_MERKLE_ROOT_TYPE_HASH ++ seed ++ merkle_root ++
      beBytes 16 0 ++ beBytes 16 expiry_u128))

/-- MerkleValidator::verify_merkle_root: expiry check, i64 to u128
conversion (an unwrap, hence a panic on failure), digest construction and
signature verification against the stored roster. -/
def verify_merkle_root (keccak : Bytes → Bytes)
    (recover : Bytes → Nat → Bytes → Option Bytes)
    (one_sig_state : OneSigState) (merkle_root : Bytes) (expiry : Int)
    (signatures : Bytes) (current_timestamp : Int) : RtResult OneSigError Unit :=
  if expiry < current_timestamp then .err .ExpiredMerkleRoot
  else
    match i64_to_u128 expiry with
    | none => .panic
    | some e =>
      liftE (verify_signatures keccak recover one_sig_state.multisig.threshold
        one_sig_state.multisig.signers
        (merkleRootDigest keccak one_sig_state.seed merkle_root e) signatures)

/-- Account descriptor inside a OneSig instruction (types.rs
OneSigAccountMeta): a 32-byte public key and two flags. -/
structure OneSigAccountMeta where
  pubkey : Bytes
  is_signer : Bool
  is_writable : Bool
  deriving DecidableEq, Repr

/-- The instruction payload hashed into a Merkle leaf (types.rs
OneSigInstruction). -/
structure OneSigInstruction where
  program_id : Bytes
  accounts : List OneSigAccountMeta
  data : Bytes
  value : Nat
  deriving DecidableEq, Repr

/-- Borsh encoding of a bool: a single 0 or 1 byte. -/
def borshBool (b : Bool) : Bytes := [if b then 1 else 0]

/-- Borsh encoding of a vector: 4-byte little-endian length prefix followed
by the element encodings in order. -/
def borshVec {α : Type} (f : α → Bytes) (l : List α) : Bytes :=
  leBytes 4 l.length ++ (l.map f).flatten

/-- Borsh encoding of one OneSigAccountMeta, field by field. -/
def borshAccountMeta (m : OneSigAccountMeta) : Bytes :=
  m.pubkey ++ borshBool m.is_signer ++ borshBool m.is_writable

/-- MerkleValidator::encode_instruction: the derived Borsh serialization of
OneSigInstruction, field by field in declaration order. -/
def encode_instruction (ix : OneSigInstruction) : Bytes :=
  ix.program_id ++ borshVec borshAccountMeta ix.accounts ++
    borshVec (fun b => [b]) ix.data ++ leBytes 8 ix.value

/-- MerkleValidator::encode_leaf: double keccak of version byte, big-endian
instance id, state account key, big-endian nonce and the encoded
instruction, concatenated in that order. -/
def encode_leaf (keccak : Bytes → Bytes) (one_sig_state : Bytes)
    (one_sig_id nonce : Nat) (ix : OneSigInstruction) : Bytes :=
  keccak (keccak (MERKLE_LEAF_ENCODING_VERSION ++ beBytes 8 one_sig_id ++
    one_sig_state ++ beBytes 8 nonce ++ encode_instruction ix))

/-- The all-zero 20-byte address, Address::default() in types.rs. -/
def zeroAddress : Bytes := List.replicate 20 0

/-- The all-zero 32-byte public key, Pubkey::default(). -/
def zeroPubkey : Bytes := List.replicate 32 0

/-- Multisig::add_signer (state.rs): reject the zero address, a full list or
a duplicate, then push. The pair carries the state after the call and the
error, if any, since the receiver is mutated in place in the source. -/
def Multisig.add_signer (m : Multisig) (signer : Bytes) :
    Multisig × Option OneSigError :=
  if signer = zeroAddress then (m, some .InvalidSigner)
  else if ¬ m.signers.length < SIGNERS_MAX_LEN then (m, some .InvalidSignersLen)
  else if signer ∈ m.signers then (m, some .DuplicateSigners)
  else ({ m with signers := m.signers ++ [signer] }, none)

/-- Multisig::remove_signer (state.rs): find the signer (error if absent),
remove it at its first position, then check that the remaining count still
covers the threshold; on that check the element has already been removed. -/
def Multisig.remove_signer (m : Multisig) (signer : Bytes) :
    Multisig × Option OneSigError :=
  if signer ∈ m.signers then
    let m' : Multisig := { m with signers := m.signers.erase signer }
    if m'.signers.length < m.threshold then (m', some .ThresholdExceedsSigners)
    else (m', none)
  else (m, some .MissingSigner)

/-- Multisig::set_threshold (state.rs): bounds check then assignment. -/
def Multisig.set_threshold (m : Multisig) (threshold : Nat) :
    Multisig × Option OneSigError :=
  if ¬ (0 < threshold ∧ threshold ≤ MAX_THRESHOLD) then (m, some .InvalidThreshold)
  else if ¬ threshold ≤ m.signers.length then (m, some .ThresholdExceedsSigners)
  else ({ m with threshold := threshold }, none)

/-- Executors::add_executor (state.rs): reject the zero key, a full list or
a duplicate, then push. -/
def Executors.add_executor (e : Executors) (executor : Bytes) :
    Executors × Option OneSigError :=
  if executor = zeroPubkey then (e, some .InvalidExecutor)
  else if ¬ e.executors.length < EXECUTORS_MAX_LEN then (e, some .InvalidExecutorsLen)
  else if executor ∈ e.executors then (e, some .DuplicateExecutor)
  else ({ e with executors := e.executors ++ [executor] }, none)

/-- Executors::remove_executor (state.rs): find the executor (error if
absent), remove it, then check that executor_required does not hold over an
empty set; on that check the element has already been removed. -/
def Executors.remove_executor (e : Executors) (executor : Bytes) :
    Executors × Option OneSigError :=
  if executor ∈ e.executors then
    let e' : Executors := { e with executors := e.executors.erase executor }
    if e'.executor_required ∧ e'.executors.isEmpty then (e', some .EmptyExecutorSet)
    else (e', none)
  else (e, some .ExecutorNotFound)

/-- Executors::set_executor_required (state.rs): setting true over an empty
executor set is rejected, otherwise the flag is assigned. -/
def Executors.set_executor_required (e : Executors) (required : Bool) :
    Executors × Option OneSigError :=
  if required ∧ e.executors.isEmpty then (e, some .EmptyExecutorSet)
  else ({ e with executor_required := required }, none)

/-- Errors surfaced by the execute_transaction entry point: either a typed
program error or the verbatim error of a failing inner CPI invocation. -/
inductive ExecError where
  | onesig : OneSigError → ExecError
  | cpi : ExecError
  deriving DecidableEq, Repr

/-- The system program id: the all-zero 32-byte key. -/
def SYSTEM_PROGRAM_ID : Bytes := List.replicate 32 0

/-- Parameters of the direct verification path (types.rs
VerifyMerkleRootParams). -/
structure VerifyMerkleRootParams where
  merkle_root : Bytes
  expiry : Int
  signatures : Bytes
  deriving DecidableEq, Repr

/-- A transaction to execute (types.rs OneSigTransaction). -/
structure OneSigTransaction where
  ix_data : Bytes
  value : Nat
  proof : List Bytes
  deriving DecidableEq, Repr

/-- Parameters of execute_transaction (types.rs ExecuteTransactionParams). -/
structure ExecuteTransactionParams where
  transaction : OneSigTransaction
  merkle_root_verification : Option VerifyMerkleRootParams
  deriving DecidableEq, Repr

/-- The slice of an account passed to the instruction that the engine
reads: its key and writability. -/
structure AccountInfoM where
  key : Bytes
  is_writable : Bool
  deriving DecidableEq, Repr

/-- What the engine observes about the world after the inner invocation
returns successfully: the agent account's lamports, owner and data length,
and the instance state as re-read by reload(). The inner action may have
mutated any of these. -/
structure InnerResult where
  agent_lamports : Nat
  agent_owner : Bytes
  agent_data_len : Nat
  state_after : OneSigState
  deriving DecidableEq, Repr

/-- Outcome of the invoke_signed call, supplied by the environment. -/
inductive InvokeOutcome where
  | failure
  | success : InnerResult → InvokeOutcome
  deriving DecidableEq, Repr

/-- The accounts of the ExecuteTransaction context that the claims touch. -/
structure ExecCtx where
  executor : Bytes
  agent_key : Bytes
  agent_lamports : Nat
  state_key : Bytes
  state : OneSigState
  merkle_root_state : Option MerkleRootState
  remaining : List AccountInfoM
  deriving DecidableEq, Repr

/-- The Anchor account constraints on the optional merkle_root_state account
(execute_transaction.rs, the constraint attributes): when the account is
supplied its expiry must not be in the past and its stored seed must equal
the instance seed. They run before the instruction body. -/
def checkExecuteAccounts (ctx : ExecCtx) (now : Int) : Except OneSigError Unit :=
  match ctx.merkle_root_state with
  | none => .ok ()
  | some r =>
    if ¬ r.expiry ≥ now then .error .ExpiredMerkleRoot
    else if ¬ r.seed = ctx.state.seed then .error .SeedMismatch
    else .ok ()

/-- The private verify_merkle_root helper of execute_transaction.rs: either
verify the supplied root directly, or fall back to the pre-verified stored
root, which must then be present. -/
def resolveMerkleRoot (keccak : Bytes → Bytes)
    (recover : Bytes → Nat → Bytes → Option Bytes)
    (ctx : ExecCtx) (mv : Option VerifyMerkleRootParams) (now : Int) :
    RtResult ExecError Bytes :=
  match mv with
  | some p =>
    match verify_merkle_root keccak recover ctx.state p.merkle_root p.expiry
        p.signatures now with
    | .ok _ => .ok p.merkle_root
    | .err e => .err (.onesig e)
    | .panic => .panic
  | none =>
    match ctx.merkle_root_state with
    | none => .err (.onesig .MissingMerkleRootState)
    | some r => .ok r.merkle_root

/-- build_instruction in execute_transaction.rs: the first remaining account
is the target program, the rest become account descriptors where only the
agent identity may be marked as signer; indexing the first account panics on
an empty list, which the caller handles separately. -/
def build_instruction (agent_key : Bytes) (transaction : OneSigTransaction)
    (remaining : List AccountInfoM) : OneSigInstruction :=
  { program_id := (remaining.headD ⟨[], false⟩).key
    accounts := remaining.tail.map fun acc =>
      ⟨acc.key, decide (acc.key = agent_key), acc.is_writable⟩
    data := transaction.ix_data
    value := transaction.value }

/-- execute_instruction in execute_transaction.rs: the re-entrancy check by
discriminator prefix (slicing panics when the data is shorter than the
discriminator), the inner invocation, then the three post-checks on the
agent account: bounded balance deduction, system-program ownership and empty
data. The discriminator is the 8-byte instruction tag Anchor derives for
execute_transaction; its value is abstract here. -/
def execute_instruction (program_id_self disc : Bytes) (balance_before : Nat)
    (ix : OneSigInstruction) (outcome : InvokeOutcome) :
    RtResult ExecError InnerResult :=
  if ix.program_id = program_id_self ∧ ix.data.length < disc.length then .panic
  else if ix.program_id = program_id_self ∧ disc = ix.data.take disc.length then
    .err (.onesig .Reentrancy)
  else
    match outcome with
    | .failure => .err .cpi
    | .success r =>
      if ¬ balance_before ≤ r.agent_lamports + ix.value then
        .err (.onesig .ExcessiveBalanceDeduction)
      else if ¬ r.agent_owner = SYSTEM_PROGRAM_ID then
        .err (.onesig .InvalidSignerOwner)
      else if ¬ r.agent_data_len = 0 then .err (.onesig .NonEmptySignerData)
      else .ok r

/-- ExecuteTransaction::apply (execute_transaction.rs): executor gating,
root resolution, leaf encoding against the nonce read now, Merkle-proof
verification, inner execution with its post-checks, reload of the instance
state and the final nonce write. Returns the instance state as left by a
successful run. -/
def executeTransactionApply (keccak : Bytes → Bytes)
    (recover : Bytes → Nat → Bytes → Option Bytes)
    (program_id_self disc : Bytes) (ctx : ExecCtx)
    (params : ExecuteTransactionParams) (now : Int) (outcome : InvokeOutcome) :
    RtResult ExecError OneSigState :=
  if ctx.state.executors.executor_required ∧
      ctx.executor ∉ ctx.state.executors.executors then
    .err (.onesig .ExecutorRequired)
  else
    match resolveMerkleRoot keccak recover ctx params.merkle_root_verification now with
    | .err e => .err e
    | .panic => .panic
    | .ok merkle_root =>
      let nonce := ctx.state.nonce
      if ctx.remaining = [] then .panic
      else
        let ix := build_instruction ctx.agent_key params.transaction ctx.remaining
        let leaf := encode_leaf keccak ctx.state_key ctx.state.one_sig_id nonce ix
        match verify_merkle_proof keccak merkle_root params.transaction.proof leaf with
        | .error e => .err (.onesig e)
        | .ok _ =>
          match execute_instruction program_id_self disc ctx.agent_lamports ix outcome with
          | .err e => .err e
          | .panic => .panic
          | .ok r => .ok { r.state_after with nonce := nonce + 1 }

/-- The full execute_transaction instruction: Anchor account constraints
first, then the instruction body. -/
def executeTransactionIx (keccak : Bytes → Bytes)
    (recover : Bytes → Nat → Bytes → Option Bytes)
    (program_id_self disc : Bytes) (ctx : ExecCtx)
    (params : ExecuteTransactionParams) (now : Int) (outcome : InvokeOutcome) :
    RtResult ExecError OneSigState :=
  match checkExecuteAccounts ctx now with
  | .error e => .err (.onesig e)
  | .ok _ => executeTransactionApply keccak recover program_id_self disc ctx params now outcome

/-- The instance state the ledger commits: a Solana instruction that returns
an error or aborts rolls the whole transaction back, so only a successful
run persists its final state. -/
def committedState (pre : OneSigState) {ε : Type}
    (r : RtResult ε OneSigState) : OneSigState :=
  match r with
  | .ok s => s
  | .err _ => pre
  | .panic => pre

/-- VerifyMerkleRoot::apply (verify_merkle_root.rs): verify the root and
signatures, then persist a MerkleRootState carrying the root, the instance
seed copied at creation time, the expiry and the payer. -/
def verifyMerkleRootApply (keccak : Bytes → Bytes)
    (recover : Bytes → Nat → Bytes → Option Bytes)
    (one_sig_state : OneSigState) (payer : Bytes) (bump : Nat)
    (params : VerifyMerkleRootParams) (now : Int) :
    RtResult OneSigError MerkleRootState :=
  match verify_merkle_root keccak recover one_sig_state params.merkle_root
      params.expiry params.signatures now with
  | .ok _ =>
    .ok { merkle_root := params.merkle_root, seed := one_sig_state.seed,
          expiry := params.expiry, rent_payer := payer, bump := bump }
  | .err e => .err e
  | .panic => .panic

theorem execute_instruction_ok (program_id_self disc : Bytes) (b : Nat)
    (ix : OneSigInstruction) (outcome : InvokeOutcome) (r : InnerResult)
    (h : execute_instruction program_id_self disc b ix outcome = .ok r) :
    outcome = .success r ∧ b ≤ r.agent_lamports + ix.value ∧
      r.agent_owner = SYSTEM_PROGRAM_ID ∧ r.agent_data_len = 0 := by
  unfold execute_instruction at h
  split_ifs at h
  cases outcome with
  | failure => cases h
  | success r0 =>
    dsimp only at h
    split_ifs at h with h1 h2 h3
    cases h
    exact ⟨rfl, by omega, by tauto, by tauto⟩

theorem executeIx_ok_spec (keccak : Bytes → Bytes)
    (recover : Bytes → Nat → Bytes → Option Bytes)
    (program_id_self disc : Bytes) (ctx : ExecCtx)
    (params : ExecuteTransactionParams) (now : Int) (outcome : InvokeOutcome)
    (s' : OneSigState)
    (h : executeTransactionIx keccak recover program_id_self disc ctx params now
      outcome = .ok s') :
    checkExecuteAccounts ctx now = .ok () ∧
    (∃ root, resolveMerkleRoot keccak recover ctx params.merkle_root_verification
      now = .ok root) ∧
    ∃ r, outcome = .success r ∧
      s' = { r.state_after with nonce := ctx.state.nonce + 1 } ∧
      ctx.agent_lamports ≤ r.agent_lamports + params.transaction.value ∧
      r.agent_owner = SYSTEM_PROGRAM_ID ∧ r.agent_data_len = 0 := by
  unfold executeTransactionIx at h
  cases hchk : checkExecuteAccounts ctx now with
  | error e => rw [hchk] at h; cases h
  | ok u =>
    cases u
    rw [hchk] at h
    refine ⟨rfl, ?_⟩
    unfold executeTransactionApply at h
    by_cases hgate : ctx.state.executors.executor_required = true ∧
        ctx.executor ∉ ctx.state.executors.executors
    · rw [if_pos hgate] at h; cases h
    · rw [if_neg hgate] at h
      cases hres : resolveMerkleRoot keccak recover ctx params.merkle_root_verification now with
      | err e => rw [hres] at h; cases h
      | panic => rw [hres] at h; cases h
      | ok root =>
        rw [hres] at h
        dsimp only at h
        refine ⟨⟨root, rfl⟩, ?_⟩
        by_cases hrem : ctx.remaining = []
        · rw [if_pos hrem] at h; cases h
        · rw [if_neg hrem] at h
          cases hmp : verify_merkle_proof keccak root params.transaction.proof
              (encode_leaf keccak ctx.state_key ctx.state.one_sig_id ctx.state.nonce
                (build_instruction ctx.agent_key params.transaction ctx.remaining)) with
          | error e => rw [hmp] at h; cases h
          | ok u2 =>
            cases u2
            rw [hmp] at h
            dsimp only at h
            cases hexe : execute_instruction program_id_self disc ctx.agent_lamports
                (build_instruction ctx.agent_key params.transaction ctx.remaining) outcome with
            | err e => rw [hexe] at h; cases h
            | panic => rw [hexe] at h; cases h
            | ok r =>
              rw [hexe] at h
              dsimp only at h
              rcases execute_instruction_ok _ _ _ _ _ _ hexe with ⟨ho, hbal, hown, hdat⟩
              cases h
              refine ⟨r, ho, rfl, ?_, hown, hdat⟩
              simpa [build_instruction] using hbal

/-- A trivial concrete hash function used only to instantiate witnesses:
every input maps to the all-zero 32-byte string. -/
def keccak0 : Bytes → Bytes := fun _ => List.replicate 32 0

/-- A concrete recovery oracle that always fails. -/
def recover0 : Bytes → Nat → Bytes → Option Bytes := fun _ _ _ => none

/-- A concrete recovery oracle that always returns the all-zero 64-byte
public key. -/
def recover1 : Bytes → Nat → Bytes → Option Bytes :=
  fun _ _ _ => some (List.replicate 64 0)

/-- Claim C6: verify_merkle_proof succeeds exactly when folding the leaf
through the proof elements in order, hashing at each step the smaller of
current and sibling (under unsigned byte-array comparison) followed by the
larger, yields the expected root; and each folding step is unchanged when
current and sibling swap roles. -/
theorem verify_merkle_proof_sorted_iff (keccak : Bytes → Bytes)
    (merkle_root leaf : Bytes) (proof : List Bytes) :
    (verify_merkle_proof keccak merkle_root proof leaf = .ok () ↔
      proof.foldl (merkleStepSorted keccak) leaf = merkle_root) ∧
    ∀ c p, merkleStep keccak c p = merkleStep keccak p c := by
  constructor
  · unfold verify_merkle_proof
    rw [foldl_merkleStep_eq_sorted]
    by_cases hr : proof.foldl (merkleStepSorted keccak) leaf = merkle_root
    · simp [hr]
    · simp [hr]
  · exact merkleStep_comm keccak

/-- Witness for C6 at concrete inputs. -/
theorem verify_merkle_proof_sorted_iff_witness :
    (verify_merkle_proof keccak0 (List.replicate 32 0) [[3, 4]] [1, 2] = .ok () ↔
      [[3, 4]].foldl (merkleStepSorted keccak0) [1, 2] = List.replicate 32 0) ∧
    merkleStep keccak0 [1] [2] = merkleStep keccak0 [2] [1] :=
  ⟨(verify_merkle_proof_sorted_iff keccak0 (List.replicate 32 0) [1, 2] [[3, 4]]).1,
   (verify_merkle_proof_sorted_iff keccak0 (List.replicate 32 0) [1, 2] [[3, 4]]).2 [1] [2]⟩

/-- Claim C1: for a threshold of at least 1, verify_signatures succeeds if
and only if the blob length is a multiple of 65, at least threshold times
65, and the 65-byte chunks in blob order all recover (after 27/28
recovery-id normalization) to public keys whose derived addresses are
members of the signer list and pairwise distinct; any chunk that fails
recovery, is not in the list or repeats an earlier signer fails the call,
and extra valid non-duplicate signatures beyond the threshold do not cause
failure. -/
theorem verify_signatures_ok_iff (keccak : Bytes → Bytes)
    (recover : Bytes → Nat → Bytes → Option Bytes)
    (threshold : Nat) (signers : List Bytes) (digest signatures : Bytes)
    (ht : 1 ≤ threshold) :
    verify_signatures keccak recover threshold signers digest signatures = .ok () ↔
      signatures.length % 65 = 0 ∧ threshold * 65 ≤ signatures.length ∧
      ∃ addrs : List Bytes,
        mapO (chunkAddr keccak recover digest) (chunks65 signatures) = some addrs ∧
        (∀ a ∈ addrs, a ∈ signers) ∧ addrs.Nodup := by
  unfold verify_signatures SIGNATURE_BYTES_LEN
  rw [if_neg (by omega : ¬ threshold = 0)]
  by_cases h1 : signatures.length % 65 = 0
  · rw [if_neg (fun hc => hc h1)]
    by_cases h2 : signatures.length < threshold * 65
    · rw [if_pos h2]
      constructor
      · intro h; cases h
      · rintro ⟨-, hge, -⟩
        omega
    · rw [if_neg h2, verifyLoop_ok_iff]
      constructor
      · rintro ⟨addrs, hm, hsig, hnd, -⟩
        exact ⟨h1, by omega, addrs, hm, hsig, hnd⟩
      · rintro ⟨-, -, addrs, hm, hsig, hnd⟩
        exact ⟨addrs, hm, hsig, hnd, by simp⟩
  · rw [if_pos h1]
    constructor
    · intro h; cases h
    · rintro ⟨h, -⟩
      exact absurd h h1

/-- Witness for C1: a single all-zero 65-byte chunk under a recovery oracle
that returns the all-zero public key, whose derived address is the sole
authorized signer. -/
theorem verify_signatures_ok_iff_witness :
    verify_signatures keccak0 recover1 1 [List.replicate 20 0] []
        (List.replicate 65 0) = .ok () ↔
      (List.replicate 65 (0 : Nat)).length % 65 = 0 ∧
      1 * 65 ≤ (List.replicate 65 (0 : Nat)).length ∧
      ∃ addrs : List Bytes,
        mapO (chunkAddr keccak0 recover1 []) (chunks65 (List.replicate 65 0)) =
          some addrs ∧
        (∀ a ∈ addrs, a ∈ [List.replicate 20 (0 : Nat)]) ∧ addrs.Nodup :=
  verify_signatures_ok_iff keccak0 recover1 1 [List.replicate 20 0] []
    (List.replicate 65 0) (by decide)

/-- Claim C2: whenever the expiry check passes (in the practical regime of a
non-negative clock value and an expiry inside the i64 range), the call
reduces to signature verification against the digest keccak of the fixed
two-byte prefix 0x19 0x01, the fixed 32-byte domain separator and the inner
keccak of the fixed 32-byte type hash, the instance seed, the root and the
expiry as a 256-bit big-endian integer whose high 16 bytes are zero; the
prefix, domain separator and type hash are the stored literal constants and
the digest is an expression in seed, root and expiry alone. -/
theorem verify_merkle_root_digest_spec (keccak : Bytes → Bytes)
    (recover : Bytes → Nat → Bytes → Option Bytes)
    (st : OneSigState) (merkle_root : Bytes) (expiry : Int) (signatures : Bytes)
    (now : Int) (h0 : 0 ≤ now) (h1 : now ≤ expiry) (h2 : expiry < 2 ^ 63) :
    verify_merkle_root keccak recover st merkle_root expiry signatures now =
      liftE (verify_signatures keccak recover st.multisig.threshold
        st.multisig.signers
        (keccak ([0x19, 0x01] ++ DOMAIN_SEPARATOR ++
          keccak (SIGN_MERKLE_ROOT_TYPE_HASH ++ st.seed ++ merkle_root ++
            beBytes 32 expiry.toNat)))
        signatures) ∧
    EIP191_PREFIX_FOR_EIP712 = [0x19, 0x01] ∧
    DOMAIN_SEPARATOR.length = 32 ∧ SIGN_MERKLE_ROOT_TYPE_HASH.length = 32 := by
  refine ⟨?_, rfl, by decide, by decide⟩
  unfold verify_merkle_root
  rw [if_neg (by omega : ¬ expiry < now)]
  have hconv : i64_to_u128 expiry = some expiry.toNat := by
    unfold i64_to_u128
    have hp : (2 : Int) ^ 63 < 2 ^ 128 := by norm_num
    rw [if_pos ⟨by omega, by omega⟩]
  rw [hconv]
  have henc : beBytes 16 0 ++ beBytes 16 expiry.toNat = beBytes 32 expiry.toNat := by
    have hlt : expiry.toNat < 256 ^ 16 := by
      have : (256 : Nat) ^ 16 = 2 ^ 128 := by norm_num
      rw [this]
      have h63 : (2 : Nat) ^ 63 < 2 ^ 128 := by norm_num
      omega
    simpa using beBytes_zero_append 16 16 expiry.toNat hlt
  unfold merkleRootDigest EIP191_PREFIX_FOR_EIP712
  simp only [List.append_assoc]
  rw [henc]

/-- Witness for C2 at concrete inputs. -/
theorem verify_merkle_root_digest_spec_witness :
    verify_merkle_root keccak0 recover0
        ⟨0, [], 0, 0, ⟨[], 1⟩, ⟨[], false⟩⟩ [] 5 [] 3 =
      liftE (verify_signatures keccak0 recover0 1 []
        (keccak0 ([0x19, 0x01] ++ DOMAIN_SEPARATOR ++
          keccak0 (SIGN_MERKLE_ROOT_TYPE_HASH ++ [] ++ [] ++
            beBytes 32 (Int.toNat 5))))
        []) ∧
    EIP191_PREFIX_FOR_EIP712 = [0x19, 0x01] ∧
    DOMAIN_SEPARATOR.length = 32 ∧ SIGN_MERKLE_ROOT_TYPE_HASH.length = 32 :=
  verify_merkle_root_digest_spec keccak0 recover0
    ⟨0, [], 0, 0, ⟨[], 1⟩, ⟨[], false⟩⟩ [] 5 [] 3
    (by decide) (by decide) (by decide)

/-- Claim C9: when the clock value is non-negative and the expiry passes the
expiry check, the i64 to u128 conversion inside verify_merkle_root succeeds,
so the panicking branch of that conversion is unreachable and the call never
panics. -/
theorem verify_merkle_root_no_panic (keccak : Bytes → Bytes)
    (recover : Bytes → Nat → Bytes → Option Bytes)
    (st : OneSigState) (merkle_root : Bytes) (expiry : Int) (signatures : Bytes)
    (now : Int) (h0 : 0 ≤ now) (h1 : now ≤ expiry) (h2 : expiry < 2 ^ 63) :
    i64_to_u128 expiry = some expiry.toNat ∧
    verify_merkle_root keccak recover st merkle_root expiry signatures now ≠
      .panic := by
  have hconv : i64_to_u128 expiry = some expiry.toNat := by
    unfold i64_to_u128
    have hp : (2 : Int) ^ 63 < 2 ^ 128 := by norm_num
    rw [if_pos ⟨by omega, by omega⟩]
  refine ⟨hconv, ?_⟩
  unfold verify_merkle_root
  rw [if_neg (by omega : ¬ expiry < now), hconv]
  dsimp only
  cases hv : verify_signatures keccak recover st.multisig.threshold
      st.multisig.signers
      (merkleRootDigest keccak st.seed merkle_root expiry.toNat) signatures with
  | ok u => simp [liftE]
  | error e => simp [liftE]

/-- Witness for C9 at concrete inputs. -/
theorem verify_merkle_root_no_panic_witness :
    i64_to_u128 5 = some (Int.toNat 5) ∧
    verify_merkle_root keccak0 recover0
        ⟨0, [], 0, 0, ⟨[], 1⟩, ⟨[], false⟩⟩ [] 5 [] 3 ≠ .panic :=
  verify_merkle_root_no_panic keccak0 recover0
    ⟨0, [], 0, 0, ⟨[], 1⟩, ⟨[], false⟩⟩ [] 5 [] 3
    (by decide) (by decide) (by decide)

theorem flatten_map_singleton (l : Bytes) : (l.map fun b => [b]).flatten = l := by
  induction l with
  | nil => rfl
  | cons x xs ih => simp [ih]

/-- Claim C5: encode_leaf is the double keccak of the version byte 1, the
8-byte big-endian instance id, the instance account key, the 8-byte
big-endian nonce and the Borsh-serialized instruction laid out as program
id, length-prefixed account descriptors, length-prefixed payload and 8-byte
value, concatenated with no other padding; each account descriptor with a
32-byte key serializes to exactly 32+1+1 bytes. -/
theorem encode_leaf_spec (keccak : Bytes → Bytes) (one_sig_state : Bytes)
    (one_sig_id nonce : Nat) (ix : OneSigInstruction)
    (hacc : ∀ m ∈ ix.accounts, m.pubkey.length = 32) :
    encode_leaf keccak one_sig_state one_sig_id nonce ix =
      keccak (keccak ([1] ++ beBytes 8 one_sig_id ++ one_sig_state ++
        beBytes 8 nonce ++
        (ix.program_id ++
          (leBytes 4 ix.accounts.length ++ (ix.accounts.map borshAccountMeta).flatten) ++
          (leBytes 4 ix.data.length ++ ix.data) ++
          leBytes 8 ix.value))) ∧
    (∀ m ∈ ix.accounts, (borshAccountMeta m).length = 34) ∧
    (beBytes 8 one_sig_id).length = 8 ∧ (beBytes 8 nonce).length = 8 ∧
    MERKLE_LEAF_ENCODING_VERSION = [1] := by
  refine ⟨?_, ?_, beBytes_length 8 one_sig_id, beBytes_length 8 nonce, rfl⟩
  · unfold encode_leaf encode_instruction borshVec MERKLE_LEAF_ENCODING_VERSION
    rw [flatten_map_singleton]
  · intro m hm
    simp [borshAccountMeta, borshBool, hacc m hm]

/-- Witness for C5 at concrete inputs. -/
theorem encode_leaf_spec_witness :
    encode_leaf keccak0 [7] 2 3 ⟨[9], [⟨List.replicate 32 0, true, false⟩], [4], 1⟩ =
      keccak0 (keccak0 ([1] ++ beBytes 8 2 ++ [7] ++ beBytes 8 3 ++
        ([9] ++
          (leBytes 4 [(⟨List.replicate 32 0, true, false⟩ : OneSigAccountMeta)].length ++
            ([(⟨List.replicate 32 0, true, false⟩ : OneSigAccountMeta)].map
              borshAccountMeta).flatten) ++
          (leBytes 4 [4].length ++ [4]) ++
          leBytes 8 1))) ∧
    (∀ m ∈ [(⟨List.replicate 32 0, true, false⟩ : OneSigAccountMeta)],
      (borshAccountMeta m).length = 34) ∧
    (beBytes 8 2).length = 8 ∧ (beBytes 8 3).length = 8 ∧
    MERKLE_LEAF_ENCODING_VERSION = [1] :=
  encode_leaf_spec keccak0 [7] 2 3 ⟨[9], [⟨List.replicate 32 0, true, false⟩], [4], 1⟩
    (by decide)

/-- Counterexample to claim C4 as stated: with a single signer and threshold
1, remove_signer on that signer returns the ThresholdExceedsSigners error,
yet the signer has already been removed from the list, so the state after
the erroring call differs from the state before it. -/
theorem remove_signer_error_mutates :
    (Multisig.remove_signer ⟨[List.replicate 20 1], 1⟩ (List.replicate 20 1)).2 =
      some .ThresholdExceedsSigners ∧
    (Multisig.remove_signer ⟨[List.replicate 20 1], 1⟩ (List.replicate 20 1)).1 ≠
      ⟨[List.replicate 20 1], 1⟩ := by
  constructor
  · rfl
  · intro h
    have : (Multisig.remove_signer ⟨[List.replicate 20 1], 1⟩
        (List.replicate 20 1)).1.signers = [List.replicate 20 1] := by rw [h]
    simp [Multisig.remove_signer] at this

/-- Claim C4 (amended): add_signer, set_threshold, add_executor and
set_executor_required validate before mutating and leave the state exactly
as it was whenever they return an error; remove_signer and remove_executor
leave the state unchanged on their not-found errors, but on the
post-removal invariant errors (ThresholdExceedsSigners, EmptyExecutorSet)
the element has already been erased, and that erasure is the only change.
No other field is ever partially updated on error. -/
theorem mutators_error_state :
    (∀ (m : Multisig) (s : Bytes),
      (m.add_signer s).2.isSome → (m.add_signer s).1 = m) ∧
    (∀ (m : Multisig) (t : Nat),
      (m.set_threshold t).2.isSome → (m.set_threshold t).1 = m) ∧
    (∀ (e : Executors) (x : Bytes),
      (e.add_executor x).2.isSome → (e.add_executor x).1 = e) ∧
    (∀ (e : Executors) (b : Bool),
      (e.set_executor_required b).2.isSome → (e.set_executor_required b).1 = e) ∧
    (∀ (m : Multisig) (s : Bytes),
      (m.remove_signer s).2 = some .MissingSigner → (m.remove_signer s).1 = m) ∧
    (∀ (m : Multisig) (s : Bytes),
      (m.remove_signer s).2 = some .ThresholdExceedsSigners →
        (m.remove_signer s).1 = { m with signers := m.signers.erase s }) ∧
    (∀ (e : Executors) (x : Bytes),
      (e.remove_executor x).2 = some .ExecutorNotFound →
        (e.remove_executor x).1 = e) ∧
    (∀ (e : Executors) (x : Bytes),
      (e.remove_executor x).2 = some .EmptyExecutorSet →
        (e.remove_executor x).1 = { e with executors := e.executors.erase x }) := by
  refine ⟨?_, ?_, ?_, ?_, ?_, ?_, ?_, ?_⟩
  · intro m s h
    unfold Multisig.add_signer at h ⊢
    split_ifs at h ⊢ <;> simp_all
  · intro m t h
    unfold Multisig.set_threshold at h ⊢
    split_ifs at h ⊢ <;> simp_all
  · intro e x h
    unfold Executors.add_executor at h ⊢
    split_ifs at h ⊢ <;> simp_all
  · intro e b h
    unfold Executors.set_executor_required at h ⊢
    split_ifs at h ⊢ <;> simp_all
  · intro m s h
    unfold Multisig.remove_signer at h ⊢
    dsimp only at h ⊢
    split_ifs at h ⊢ <;> simp_all
  · intro m s h
    unfold Multisig.remove_signer at h ⊢
    dsimp only at h ⊢
    split_ifs at h ⊢ <;> simp_all
  · intro e x h
    unfold Executors.remove_executor at h ⊢
    dsimp only at h ⊢
    split_ifs at h ⊢ <;> simp_all
  · intro e x h
    unfold Executors.remove_executor at h ⊢
    dsimp only at h ⊢
    split_ifs at h ⊢ <;> simp_all

/-- Witness for the amended C4: a concrete erroring call of each kind. -/
theorem mutators_error_state_witness :
    (Multisig.add_signer ⟨[], 1⟩ zeroAddress).1 = ⟨[], 1⟩ ∧
    (Multisig.remove_signer ⟨[List.replicate 20 1], 1⟩ (List.replicate 20 1)).1 =
      ⟨List.erase [List.replicate 20 1] (List.replicate 20 1), 1⟩ :=
  ⟨mutators_error_state.1 ⟨[], 1⟩ zeroAddress (by decide),
   mutators_error_state.2.2.2.2.2.1 ⟨[List.replicate 20 1], 1⟩
     (List.replicate 20 1) (by rfl)⟩

/-- Concrete instance state for witnesses. -/
def witnessState : OneSigState := ⟨0, [], 0, 0, ⟨[], 1⟩, ⟨[], false⟩⟩

/-- Concrete execution context for witnesses. -/
def witnessCtx : ExecCtx := ⟨[], [], 0, [], witnessState, none, []⟩

/-- Concrete execute_transaction parameters for witnesses: the two-step path
with no inline verification. -/
def witnessParams : ExecuteTransactionParams := ⟨⟨[], 0, []⟩, none⟩

/-- Claim C3: a successful execute_transaction stores exactly the nonce read
before leaf encoding plus 1 (also when the inner action mutated the stored
state, which is re-read and kept for every other field); every rejection
leaves the committed state, hence the nonce, unchanged; and the committed
nonce never decreases. -/
theorem execute_transaction_nonce (keccak : Bytes → Bytes)
    (recover : Bytes → Nat → Bytes → Option Bytes)
    (program_id_self disc : Bytes) (ctx : ExecCtx)
    (params : ExecuteTransactionParams) (now : Int) (outcome : InvokeOutcome) :
    (∀ s', executeTransactionIx keccak recover program_id_self disc ctx params
        now outcome = .ok s' →
      s'.nonce = ctx.state.nonce + 1 ∧
      ∀ r, outcome = .success r →
        s' = { r.state_after with nonce := ctx.state.nonce + 1 }) ∧
    (∀ e, executeTransactionIx keccak recover program_id_self disc ctx params
        now outcome = .err e →
      committedState ctx.state (executeTransactionIx keccak recover
        program_id_self disc ctx params now outcome) = ctx.state) ∧
    ctx.state.nonce ≤ (committedState ctx.state (executeTransactionIx keccak
      recover program_id_self disc ctx params now outcome)).nonce := by
  refine ⟨?_, ?_, ?_⟩
  · intro s' h
    rcases executeIx_ok_spec _ _ _ _ _ _ _ _ _ h with ⟨-, -, r, ho, hs, -⟩
    subst hs
    refine ⟨rfl, ?_⟩
    intro r2 ho2
    rw [ho2] at ho
    cases ho
    rfl
  · intro e h
    rw [h]
    rfl
  · cases hR : executeTransactionIx keccak recover program_id_self disc ctx
        params now outcome with
    | ok s' =>
      rcases executeIx_ok_spec _ _ _ _ _ _ _ _ _ hR with ⟨-, -, r, -, hs, -⟩
      subst hs
      simp [committedState]
    | err e => simp [committedState]
    | panic => simp [committedState]

/-- Witness for C3 at concrete inputs. -/
theorem execute_transaction_nonce_witness :
    witnessCtx.state.nonce ≤ (committedState witnessCtx.state
      (executeTransactionIx keccak0 recover0 [] (List.replicate 8 0) witnessCtx
        witnessParams 0 .failure)).nonce :=
  (execute_transaction_nonce keccak0 recover0 [] (List.replicate 8 0) witnessCtx
    witnessParams 0 .failure).2.2

/-- Claim C7: on the two-step path (no inline verification parameters) a
success requires a stored merkle-root record whose expiry is at least the
current time and whose stored seed equals the instance's current seed; that
stored seed is copied from the instance when the record is created, so after
a seed rotation every prior record is rejected at use time even if
unexpired. -/
theorem twostep_commitment_binding (keccak : Bytes → Bytes)
    (recover : Bytes → Nat → Bytes → Option Bytes)
    (program_id_self disc : Bytes) (ctx : ExecCtx)
    (params : ExecuteTransactionParams) (now : Int) (outcome : InvokeOutcome)
    (hnone : params.merkle_root_verification = none) :
    (∀ s', executeTransactionIx keccak recover program_id_self disc ctx params
        now outcome = .ok s' →
      ∃ record, ctx.merkle_root_state = some record ∧ now ≤ record.expiry ∧
        record.seed = ctx.state.seed) ∧
    (∀ st0 payer bump p ts record,
      verifyMerkleRootApply keccak recover st0 payer bump p ts = .ok record →
        record.seed = st0.seed) ∧
    (∀ record, ctx.merkle_root_state = some record →
      record.seed ≠ ctx.state.seed →
      ∀ s', executeTransactionIx keccak recover program_id_self disc ctx params
        now outcome ≠ .ok s') := by
  refine ⟨?_, ?_, ?_⟩
  · intro s' h
    rcases executeIx_ok_spec _ _ _ _ _ _ _ _ _ h with ⟨hchk, ⟨root, hres⟩, -⟩
    unfold resolveMerkleRoot at hres
    rw [hnone] at hres
    cases hmr : ctx.merkle_root_state with
    | none => rw [hmr] at hres; cases hres
    | some record =>
      rw [hmr] at hres
      unfold checkExecuteAccounts at hchk
      rw [hmr] at hchk
      dsimp only at hchk
      split_ifs at hchk with h1 h2
      exact ⟨record, rfl, by omega, by tauto⟩
  · intro st0 payer bump p ts record h
    unfold verifyMerkleRootApply at h
    cases hv : verify_merkle_root keccak recover st0 p.merkle_root p.expiry
        p.signatures ts with
    | ok u => rw [hv] at h; cases h; rfl
    | err e => rw [hv] at h; cases h
    | panic => rw [hv] at h; cases h
  · intro record hmr hseed s' h
    rcases executeIx_ok_spec _ _ _ _ _ _ _ _ _ h with ⟨hchk, -, -⟩
    unfold checkExecuteAccounts at hchk
    rw [hmr] at hchk
    dsimp only at hchk
    split_ifs at hchk with h1 h2

/-- Concrete stored record whose seed differs from the witness instance
seed. -/
def witnessRecord : MerkleRootState := ⟨[], [1], 0, [], 0⟩

/-- Concrete execution context holding the mismatched-seed record. -/
def witnessCtx2 : ExecCtx := ⟨[], [], 0, [], witnessState, some witnessRecord, []⟩

/-- Witness for C7: a stored record whose seed no longer matches the
instance seed is rejected at use time. -/
theorem twostep_commitment_binding_witness :
    executeTransactionIx keccak0 recover0 [] (List.replicate 8 0) witnessCtx2
      witnessParams 0 .failure ≠ .ok witnessState :=
  (twostep_commitment_binding keccak0 recover0 [] (List.replicate 8 0)
    witnessCtx2 witnessParams 0 .failure rfl).2.2 witnessRecord rfl
    (by decide) witnessState

/-- Claim C8: execute_transaction counts an attempt as executed only when,
after the inner invocation returns, the agent's balance satisfies
balance_before less or equal balance_after plus the declared value, the
agent account is still owned by the system program and its data is empty;
every rejection leaves the committed nonce unchanged. -/
theorem execute_transaction_postchecks (keccak : Bytes → Bytes)
    (recover : Bytes → Nat → Bytes → Option Bytes)
    (program_id_self disc : Bytes) (ctx : ExecCtx)
    (params : ExecuteTransactionParams) (now : Int) (outcome : InvokeOutcome) :
    (∀ s', executeTransactionIx keccak recover program_id_self disc ctx params
        now outcome = .ok s' →
      ∃ r, outcome = .success r ∧
        ctx.agent_lamports ≤ r.agent_lamports + params.transaction.value ∧
        r.agent_owner = SYSTEM_PROGRAM_ID ∧ r.agent_data_len = 0) ∧
    (∀ e, executeTransactionIx keccak recover program_id_self disc ctx params
        now outcome = .err e →
      (committedState ctx.state (executeTransactionIx keccak recover
        program_id_self disc ctx params now outcome)).nonce =
        ctx.state.nonce) := by
  constructor
  · intro s' h
    rcases executeIx_ok_spec _ _ _ _ _ _ _ _ _ h with ⟨-, -, r, ho, -, hbal, hown, hdat⟩
    exact ⟨r, ho, hbal, hown, hdat⟩
  · intro e h
    rw [h]
    rfl

/-- Witness for C8 at concrete inputs: a failing inner invocation leaves the
nonce unchanged. -/
theorem execute_transaction_postchecks_witness :
    (committedState witnessCtx.state (executeTransactionIx keccak0 recover0
      [] (List.replicate 8 0) witnessCtx witnessParams 0 .failure)).nonce =
      witnessCtx.state.nonce :=
  (execute_transaction_postchecks keccak0 recover0 [] (List.replicate 8 0)
    witnessCtx witnessParams 0 .failure).2 (.onesig .MissingMerkleRootState)
    (by rfl)

/-- Claim C10: when the inner instruction targets this program itself, the
call is rejected with the Reentrancy error exactly when the data is at least
discriminator-length and its prefix equals the execute_transaction
discriminator; data shorter than the discriminator makes the prefix slice
panic instead of returning a typed error. -/
theorem reentrancy_guard (program_id_self disc : Bytes) (b : Nat)
    (ix : OneSigInstruction) (outcome : InvokeOutcome)
    (hpid : ix.program_id = program_id_self) (hdisc : disc.length = 8) :
    (execute_instruction program_id_self disc b ix outcome =
        .err (.onesig .Reentrancy) ↔
      8 ≤ ix.data.length ∧ disc = ix.data.take 8) ∧
    (ix.data.length < 8 →
      execute_instruction program_id_self disc b ix outcome = .panic) := by
  unfold execute_instruction
  rw [hdisc, hpid]
  constructor
  · by_cases hshort : ix.data.length < 8
    · rw [if_pos ⟨rfl, hshort⟩]
      constructor
      · intro h; cases h
      · rintro ⟨hge, -⟩; omega
    · rw [if_neg (by tauto)]
      by_cases hpre : disc = ix.data.take 8
      · rw [if_pos ⟨rfl, hpre⟩]
        simp only [true_iff]
        exact ⟨by omega, hpre⟩
      · rw [if_neg (by tauto)]
        constructor
        · intro h
          cases outcome with
          | failure => cases h
          | success r =>
            dsimp only at h
            split_ifs at h <;> cases h
        · rintro ⟨-, hp⟩
          exact absurd hp hpre
  · intro hshort
    rw [if_pos ⟨rfl, hshort⟩]

/-- Witness for C10: an empty-data self-targeting instruction panics. -/
theorem reentrancy_guard_witness :
    (execute_instruction [5] (List.replicate 8 0) 0 ⟨[5], [], [], 0⟩ .failure =
        .err (.onesig .Reentrancy) ↔
      8 ≤ ([] : Bytes).length ∧ List.replicate 8 0 = ([] : Bytes).take 8) ∧
    (([] : Bytes).length < 8 →
      execute_instruction [5] (List.replicate 8 0) 0 ⟨[5], [], [], 0⟩ .failure =
        .panic) :=
  reentrancy_guard [5] (List.replicate 8 0) 0 ⟨[5], [], [], 0⟩ .failure rfl
    (by decide)

end OneSig
